import Mathlib

/-!
Verification development for the starkli contract-declaration pipeline
(`src/subcommands/declare.rs`, `src/compiler.rs`).

The Rust code is shallowly embedded: `FieldElement` values are natural
numbers, with multiplication reduced modulo the Stark prime (the field
wraps), and `floor_div` as natural-number division.  External collaborators
(serde parsing, the cairo compiler libraries, the provider, the account,
the external compiler subprocess, the filesystem) are deterministic oracle
functions bundled in environment records.  `Declare::run` becomes a pure
function from arguments and an environment to a `RunResult` recording the
lines written to standard output and standard error, the transactions
submitted via `send`, the number of fee-estimation calls, which artifact
path was taken, and the overall outcome.
-/

namespace Starkli

/-- The Stark field prime: the modulus of `FieldElement` arithmetic. -/
def starkPrime : Nat := 2 ^ 251 + 17 * 2 ^ 192 + 1

/-- Rust `format!("\x7b:#064x\x7d", n)`: lowercase hex, `0x` prefix, a total
minimum width of 64 characters with zero padding inserted between the prefix
and the digits.  The width counts the two prefix characters, so small values
render as `0x` followed by 62 hex digits. -/
def rustHexAlt064 (n : Nat) : String :=
  let digits := Nat.toDigits 16 n
  let pad :=
    if digits.length + 2 < 64 then List.replicate (64 - (digits.length + 2)) '0' else []
  "0x" ++ String.mk (pad ++ digits)

/-! ## src/compiler.rs -/

/-- `CompilerVersion` from src/compiler.rs. -/
inductive CompilerVersion
  | v2_1_0
  | v2_4_0
deriving DecidableEq, Repr

/-- `Display for CompilerVersion` from src/compiler.rs. -/
def CompilerVersion.display : CompilerVersion → String
  | .v2_1_0 => "2.1.0"
  | .v2_4_0 => "2.4.0"

/-- A `SierraClass` artifact.  The fields other than `abi` (sierra program,
entry points, contract class version) are opaque to this repository and are
collapsed into a single opaque `sierra_program` component; `abi` is the field
the compiler strategies clear before serialization. -/
structure SierraClass where
  sierra_program : Nat
  abi : List String
deriving DecidableEq, Repr

/-- `BuiltInCompiler` from src/compiler.rs. -/
structure BuiltInCompiler where
  version : CompilerVersion
deriving DecidableEq, Repr

/-- `CompilerBinary` from src/compiler.rs. -/
structure CompilerBinary where
  path : String
deriving DecidableEq, Repr

/-- The distinct failure exits of the compilation strategies (the Rust code
surfaces all of them through `anyhow`). -/
inductive CompileError
  | ioError
  | invalidTempPath
  | exitStatus (code : Nat)
  | utf8Error
  | convertError
  | casmParseError
  | hashError
deriving DecidableEq, Repr

/-- Result of `Command::output()` for the external compiler subprocess:
an exit status (0 means success) and the captured standard output, already
split on UTF-8 validity (`none` models invalid UTF-8). -/
structure SubprocessOutput where
  status : Nat
  stdoutUtf8 : Option String
deriving DecidableEq, Repr

/-- Deterministic oracles for everything outside this repository that the
compiler strategies call: the linked cairo compiler libraries (`convert`,
covering serde parsing of the normalized Sierra JSON, the
`from_contract_class` conversion and serialization back to JSON, per linked
version), `serde_json::from_str::<CompiledClass>` (`parseCompiled`, yielding
an opaque parsed document), `CompiledClass::class_hash` (`casmClassHash`),
the tempfile and subprocess machinery, and, for the CASM-file source, the
load-and-parse of a compiled-class file from disk (`readCasmFile`). -/
structure CompilerEnv where
  convert : CompilerVersion → SierraClass → Option String
  parseCompiled : String → Option Nat
  casmClassHash : Nat → Option Nat
  tempCreateOk : Bool
  tempWriteOk : Bool
  tempPathOk : Bool
  runBinary : String → SierraClass → Option SubprocessOutput
  readCasmFile : String → Option Nat

/-- `BuiltInCompiler::compile` from src/compiler.rs: clone the class, clear
its ABI, serialize, convert it with the statically linked compiler selected
by `self.version`, parse the produced JSON as a `CompiledClass` and hash it. -/
def BuiltInCompiler.compile (env : CompilerEnv) (self : BuiltInCompiler)
    (cl : SierraClass) : Except CompileError Nat :=
  let cls := { cl with abi := [] }
  match env.convert self.version cls with
  | none => .error .convertError
  | some casmJson =>
    match env.parseCompiled casmJson with
    | none => .error .casmParseError
    | some casmClass =>
      match env.casmClassHash casmClass with
      | none => .error .hashError
      | some h => .ok h

/-- `CompilerBinary::compile` from src/compiler.rs: clone the class, clear
its ABI, write it to a fresh named temporary file, run the external binary
with the file path as sole argument, reject a non-zero exit status, decode
standard output as UTF-8, parse it as `CompiledClass` and hash it.  The
filesystem is modelled as the list of live temporary files: `tmp` is the
fresh name the tempfile library picks, and the `NamedTempFile` guard drops
(erasing the file) on every exit path, mirroring Rust scope-based cleanup. -/
def CompilerBinary.compile (env : CompilerEnv) (fs : List String) (tmp : String)
    (self : CompilerBinary) (cl : SierraClass) : Except CompileError Nat × List String :=
  let cls := { cl with abi := [] }
  if !env.tempCreateOk then (.error .ioError, fs)
  else
    let fs1 := tmp :: fs
    if !env.tempWriteOk then (.error .ioError, fs1.erase tmp)
    else if !env.tempPathOk then (.error .invalidTempPath, fs1.erase tmp)
    else
      match env.runBinary self.path cls with
      | none => (.error .ioError, fs1.erase tmp)
      | some out =>
        if out.status ≠ 0 then (.error (.exitStatus out.status), fs1.erase tmp)
        else
          match out.stdoutUtf8 with
          | none => (.error .utf8Error, fs1.erase tmp)
          | some s =>
            match env.parseCompiled s with
            | none => (.error .casmParseError, fs1.erase tmp)
            | some casmClass =>
              match env.casmClassHash casmClass with
              | none => (.error .hashError, fs1.erase tmp)
              | some h => (.ok h, fs1.erase tmp)

/-- Modelled from the spec: the `CasmHashSource` enum lives in src/casm.rs,
which is not present under src/; spec section 3 fixes its four variants
(in-process compiler, external compiler executable, pre-compiled CASM file,
literal hash value). -/
inductive CasmHashSource
  | builtInCompiler (c : BuiltInCompiler)
  | compilerBinary (c : CompilerBinary)
  | casmFile (path : String)
  | hash (h : Nat)
deriving DecidableEq, Repr

/-- Modelled from the spec: `get_casm_hash` lives in src/casm.rs, which is
not present under src/.  Spec section 4.1 fixes the dispatch: the compiler
variants delegate to the compilation strategies of src/compiler.rs above;
the CASM-file variant loads and parses the file as a compiled-class document
and hashes it directly; the literal hash is returned verbatim.  The
filesystem/temp-name state is threaded only for the external-binary
variant. -/
def CasmHashSource.get_casm_hash (env : CompilerEnv) (fs : List String) (tmp : String)
    (src : CasmHashSource) (cl : SierraClass) : Except CompileError Nat × List String :=
  match src with
  | .builtInCompiler c => (c.compile env cl, fs)
  | .compilerBinary c => c.compile env fs tmp cl
  | .casmFile path =>
    (match env.readCasmFile path with
     | none => .error .casmParseError
     | some casmClass =>
       match env.casmClassHash casmClass with
       | none => .error .hashError
       | some h => .ok h, fs)
  | .hash h => (.ok h, fs)

/-! ## src/subcommands/declare.rs -/

/-- `FeeSetting` (crate::fee): manual amount, estimate-only, or the default
automatic mode (`FeeSetting::None` in the source, `noSetting` here since
`none` would shadow `Option.none` in proofs). -/
inductive FeeSetting
  | manual (fee : Nat)
  | estimateOnly
  | noSetting
deriving DecidableEq, Repr

/-- `FeeSetting::is_estimate_only`. -/
def FeeSetting.is_estimate_only : FeeSetting → Bool
  | .estimateOnly => true
  | _ => false

/-- Outcome of `Provider::get_class`: a class document (opaque), the
`StarknetError::ClassHashNotFound` error, or any other provider error
(opaque payload). -/
inductive GetClassResult
  | found (info : Nat)
  | errClassHashNotFound
  | errOther (e : Nat)
deriving DecidableEq, Repr

/-- The distinct failure exits of `Declare::run` (all surfaced through
`anyhow` in the source). -/
inductive RunError
  | validation
  | unexpectedCasmClass
  | artifactParse
  | provider (e : Nat)
  | casmSource
  | compile (e : CompileError)
  | flatten
  | estimate
  | send
  | simulation
  | watch
deriving DecidableEq, Repr

/-- Which artifact branch of `Declare::run` executed. -/
inductive ClassKind
  | sierra
  | legacy
deriving DecidableEq, Repr

/-- A transaction submitted through `send`: the attached max fee, the
optional manual nonce, and which declaration path produced it. -/
structure SentTx where
  maxFee : Nat
  nonce : Option Nat
  kind : ClassKind
deriving DecidableEq, Repr

instance : DecidableEq (Except RunError Unit) := fun a b =>
  match a, b with
  | .ok (), .ok () => isTrue rfl
  | .error e₁, .error e₂ =>
    if h : e₁ = e₂ then isTrue (by rw [h]) else isFalse (by intro hc; cases hc; exact h rfl)
  | .ok (), .error _ => isFalse (by intro hc; cases hc)
  | .error _, .ok () => isFalse (by intro hc; cases hc)

/-- Observable result of one `Declare::run` invocation: the lines written to
standard output and standard error, the transactions submitted via `send`,
how many times `estimate_fee` was called, which artifact branch executed
(if any), and the overall outcome. -/
structure RunResult where
  stdout : List String
  stderr : List String
  sends : List SentTx
  estimateCalls : Nat
  pathTaken : Option ClassKind
  outcome : Except RunError Unit
deriving DecidableEq, Repr

/-- The `Declare` subcommand arguments after CLI parsing, with the fee
arguments already resolved to a `FeeSetting` (the `fee.into_setting()`
conversion lives in crate::fee, outside src/). -/
structure Declare where
  fee : FeeSetting
  simulate : Bool
  nonce : Option Nat
  watch : Bool
  poll_interval : Nat

/-- Deterministic oracles for the collaborators of `Declare::run`: the
provider dialect and `get_class` responses, the three serde parse attempts
on the artifact file (Sierra first, then generic compiled class, then
legacy; a legacy class is opaque content, hashed by `legacyClassHash`),
`SierraClass::class_hash`, the resolved `CasmHashSource` (crate::casm,
`none` models a resolution failure), the compiler environment with the
fresh temp-file name and current filesystem, `FlattenedSierraClass`
conversion success, the `estimate_fee` overall-fee answer, the
`to_big_decimal(18)` rendering, the colored simulation JSON, the `send`
transaction hash, and `watch_tx` success. -/
structure RunEnv where
  isRpc : Bool
  sierraParse : Option SierraClass
  casmParse : Bool
  legacyParse : Option Nat
  sierraClassHash : SierraClass → Nat
  legacyClassHash : Nat → Nat
  getClass : Nat → GetClassResult
  casmSource : Option CasmHashSource
  compilerEnv : CompilerEnv
  tempName : String
  fs : List String
  flattenOk : Bool
  estimateFee : Option Nat
  feeDisplay : Nat → String
  simulateOutput : Option String
  sendResult : Option Nat
  watchOk : Bool

/-- `Declare::check_already_declared`: on `Ok` print a notice to stderr and
the class hash to stdout and answer `true`; on `ClassHashNotFound` answer
`false`; propagate every other provider error. -/
def check_already_declared (resp : GetClassResult) (class_hash : Nat) :
    Except Nat Bool × List String × List String :=
  match resp with
  | .found _ =>
    (.ok true, [rustHexAlt064 class_hash],
     ["Not declaring class as already declared. Class hash:"])
  | .errClassHashNotFound => (.ok false, [], [])
  | .errOther e => (.error e, [], [])

/-- The per-variant progress message printed to stderr on the Sierra path
(lines 104-129 of declare.rs). -/
def casmSourceMessage : CasmHashSource → String
  | .builtInCompiler c =>
    "Compiling Sierra class to CASM with compiler version " ++ c.version.display ++ "..."
  | .compilerBinary c =>
    "Compiling Sierra class to CASM with compiler binary " ++ c.path ++ "..."
  | .casmFile p => "Using a compiled CASM file directly: " ++ p ++ "..."
  | .hash h => "Using the provided CASM hash: " ++ rustHexAlt064 h ++ "..."

/-- Tail of `Declare::run` shared by both paths once the max fee is fixed:
optional nonce override, attach the fee, then either simulate (print the
JSON to stdout and stop) or send, print the transaction hash to stderr,
optionally watch, and finally print the class hash as the only stdout
line (lines 162-271 and 225-271 of declare.rs). -/
def afterFee (a : Declare) (env : RunEnv) (kind : ClassKind) (class_hash : Nat)
    (out0 err0 : List String) (maxFee : Nat) (ec : Nat) : RunResult :=
  if a.simulate then
    match env.simulateOutput with
    | none => ⟨out0, err0, [], ec, some kind, .error .simulation⟩
    | some s => ⟨out0 ++ [s], err0, [], ec, some kind, .ok ()⟩
  else
    match env.sendResult with
    | none => ⟨out0, err0, [], ec, some kind, .error .send⟩
    | some txh =>
      let sent : List SentTx := [⟨maxFee, a.nonce, kind⟩]
      let err1 := err0 ++ ["Contract declaration transaction: " ++ rustHexAlt064 txh]
      if a.watch then
        let err2 := err1 ++ ["Waiting for transaction " ++ rustHexAlt064 txh ++ " to confirm..."]
        if env.watchOk then
          ⟨out0 ++ [rustHexAlt064 class_hash], err2 ++ ["Class hash declared:"],
           sent, ec, some kind, .ok ()⟩
        else ⟨out0, err2, sent, ec, some kind, .error .watch⟩
      else
        ⟨out0 ++ [rustHexAlt064 class_hash], err1 ++ ["Class hash declared:"],
         sent, ec, some kind, .ok ()⟩

/-- Fee resolution shared by both paths (lines 144-160 and 207-223 of
declare.rs): a manual fee is used as-is with no estimation; otherwise
`estimate_fee` is called, estimate-only mode prints the amount to stdout
and stops, and automatic mode multiplies the estimate by the
dialect-selected pair (field multiplication, so reduced mod the Stark
prime) and floor-divides. -/
def submitTail (a : Declare) (env : RunEnv) (kind : ClassKind) (class_hash : Nat)
    (out0 err0 : List String) : RunResult :=
  let m : Nat × Nat := if env.isRpc then (5, 2) else (3, 2)
  match a.fee with
  | .manual fee => afterFee a env kind class_hash out0 err0 fee 0
  | .estimateOnly =>
    match env.estimateFee with
    | none => ⟨out0, err0, [], 1, some kind, .error .estimate⟩
    | some e => ⟨out0 ++ [env.feeDisplay e ++ " ETH"], err0, [], 1, some kind, .ok ()⟩
  | .noSetting =>
    match env.estimateFee with
    | none => ⟨out0, err0, [], 1, some kind, .error .estimate⟩
    | some e => afterFee a env kind class_hash out0 err0 (e * m.1 % starkPrime / m.2) 1

/-- The Cairo 1 branch of `Declare::run` (lines 85-180 of declare.rs):
compute the class hash, run the idempotency check, resolve the CASM hash
source, print progress unless estimate-only, obtain the compiled-class
hash, flatten the class, then fall into the shared fee/submit tail. -/
def sierraPath (a : Declare) (env : RunEnv) (cl : SierraClass) : RunResult :=
  let class_hash := env.sierraClassHash cl
  let chk := check_already_declared (env.getClass class_hash) class_hash
  match chk.1 with
  | .error e => ⟨chk.2.1, chk.2.2, [], 0, some .sierra, .error (.provider e)⟩
  | .ok true => ⟨chk.2.1, chk.2.2, [], 0, some .sierra, .ok ()⟩
  | .ok false =>
    match env.casmSource with
    | none => ⟨[], [], [], 0, some .sierra, .error .casmSource⟩
    | some src =>
      let err0 :=
        if a.fee.is_estimate_only then []
        else ["Declaring Cairo 1 class: " ++ rustHexAlt064 class_hash, casmSourceMessage src]
      match (CasmHashSource.get_casm_hash env.compilerEnv env.fs env.tempName src cl).1 with
      | .error e => ⟨[], err0, [], 0, some .sierra, .error (.compile e)⟩
      | .ok casm_hash =>
        let err1 :=
          err0 ++ (if a.fee.is_estimate_only then []
                   else ["CASM class hash: " ++ rustHexAlt064 casm_hash])
        if env.flattenOk then submitTail a env .sierra class_hash [] err1
        else ⟨[], err1, [], 0, some .sierra, .error .flatten⟩

/-- The Cairo 0 branch of `Declare::run` (lines 186-243 of declare.rs):
compute the class hash, run the idempotency check, print progress unless
estimate-only, then fall into the shared fee/submit tail (legacy classes
have no compiled-class hash). -/
def legacyPath (a : Declare) (env : RunEnv) (lcl : Nat) : RunResult :=
  let class_hash := env.legacyClassHash lcl
  let chk := check_already_declared (env.getClass class_hash) class_hash
  match chk.1 with
  | .error e => ⟨chk.2.1, chk.2.2, [], 0, some .legacy, .error (.provider e)⟩
  | .ok true => ⟨chk.2.1, chk.2.2, [], 0, some .legacy, .ok ()⟩
  | .ok false =>
    let err0 :=
      if a.fee.is_estimate_only then []
      else ["Declaring Cairo 0 (deprecated) class: " ++ rustHexAlt064 class_hash]
    submitTail a env .legacy class_hash [] err0

/-- `Declare::run`: validate the simulate/estimate-only combination, then
detect the artifact kind by parse attempts in source order — Sierra class
first, then generic compiled class (rejected as an unexpected CASM class),
then legacy class, else an artifact parse error. -/
def Declare.run (a : Declare) (env : RunEnv) : RunResult :=
  if a.simulate && a.fee.is_estimate_only then ⟨[], [], [], 0, none, .error .validation⟩
  else
    match env.sierraParse with
    | some cl => sierraPath a env cl
    | none =>
      if env.casmParse then ⟨[], [], [], 0, none, .error .unexpectedCasmClass⟩
      else
        match env.legacyParse with
        | some lcl => legacyPath a env lcl
        | none => ⟨[], [], [], 0, none, .error .artifactParse⟩

/-- The class hash `Declare::run` computes for the artifact, following the
same parse order as the source (`none` when no declaration path is taken). -/
def classHashOfArtifact (env : RunEnv) : Option Nat :=
  match env.sierraParse with
  | some cl => some (env.sierraClassHash cl)
  | none =>
    if env.casmParse then none
    else
      match env.legacyParse with
      | some lcl => some (env.legacyClassHash lcl)
      | none => none

/-! ## Concrete environments used by witnesses and counterexamples -/

/-- A compiler environment whose oracles all answer trivially. -/
def trivialCompilerEnv : CompilerEnv :=
  { convert := fun _ _ => none
    parseCompiled := fun _ => none
    casmClassHash := fun _ => none
    tempCreateOk := true
    tempWriteOk := true
    tempPathOk := true
    runBinary := fun _ _ => none
    readCasmFile := fun _ => none }

/-- A concrete compiler environment whose subprocess exits with status 1. -/
def exitOneCompilerEnv : CompilerEnv :=
  { trivialCompilerEnv with runBinary := fun _ _ => some ⟨1, some ""⟩ }

/-- A base run environment: non-RPC dialect, nothing parses, class never
declared, legacy class hashing is the identity on the opaque content. -/
def baseRunEnv : RunEnv :=
  { isRpc := false
    sierraParse := none
    casmParse := false
    legacyParse := none
    sierraClassHash := fun c => c.sierra_program
    legacyClassHash := fun l => l
    getClass := fun _ => .errClassHashNotFound
    casmSource := none
    compilerEnv := trivialCompilerEnv
    tempName := "tmp"
    fs := []
    flattenOk := true
    estimateFee := none
    feeDisplay := fun _ => "0.001"
    simulateOutput := none
    sendResult := none
    watchOk := true }

/-- Automatic-fee arguments: default fee setting, no simulation, no manual
nonce, no watch. -/
def autoFeeArgs : Declare := ⟨.noSetting, false, none, false, 5000⟩

/-- RPC-dialect run whose fee estimate is the largest field element: the
field multiplication by 5 wraps. -/
def autoFeeCexEnv : RunEnv :=
  { baseRunEnv with isRpc := true
                    legacyParse := some 5
                    estimateFee := some (starkPrime - 1)
                    sendResult := some 9 }

/-- Non-RPC-dialect run with a small fee estimate of 100. -/
def autoFeeWitnessEnv : RunEnv :=
  { baseRunEnv with legacyParse := some 5
                    estimateFee := some 100
                    sendResult := some 9 }

/-- The concrete scenario of C7: a legacy artifact with class hash 0xAB,
class not yet declared, send succeeding. -/
def manualFeeScenarioEnv : RunEnv :=
  { baseRunEnv with legacyParse := some 0xAB
                    sendResult := some 7 }

/-- Manual fee of 1000, no simulation, no watch. -/
def manualFeeScenarioArgs : Declare := ⟨.manual 1000, false, none, false, 5000⟩

/-- A run environment whose provider reports the class already declared. -/
def alreadyDeclaredEnv : RunEnv :=
  { baseRunEnv with legacyParse := some 12
                    getClass := fun _ => .found 0 }

/-- A legacy artifact with a fee estimate available, for estimate-only. -/
def estimateOnlyEnv : RunEnv :=
  { baseRunEnv with legacyParse := some 3
                    estimateFee := some 42 }

/-- A legacy artifact with a simulation result available, for simulate
mode. -/
def simulateModeEnv : RunEnv :=
  { baseRunEnv with legacyParse := some 3
                    simulateOutput := some "simulation trace" }

/-! ## Helper lemmas about the run phases -/

theorem is_estimate_only_iff (f : FeeSetting) :
    f.is_estimate_only = true ↔ f = .estimateOnly := by
  cases f <;> simp [FeeSetting.is_estimate_only]

theorem afterFee_pathTaken (a : Declare) (env : RunEnv) (k : ClassKind) (ch : Nat)
    (out0 err0 : List String) (mf ec : Nat) :
    (afterFee a env k ch out0 err0 mf ec).pathTaken = some k := by
  unfold afterFee
  repeat' split
  all_goals rfl

theorem submitTail_pathTaken (a : Declare) (env : RunEnv) (k : ClassKind) (ch : Nat)
    (out0 err0 : List String) :
    (submitTail a env k ch out0 err0).pathTaken = some k := by
  unfold submitTail
  repeat' split
  all_goals first | rfl | apply afterFee_pathTaken

theorem sierraPath_found (a : Declare) (env : RunEnv) (cl : SierraClass) (i : Nat)
    (hg : env.getClass (env.sierraClassHash cl) = .found i) :
    sierraPath a env cl
      = ⟨[rustHexAlt064 (env.sierraClassHash cl)],
         ["Not declaring class as already declared. Class hash:"],
         [], 0, some .sierra, .ok ()⟩ := by
  unfold sierraPath
  simp [check_already_declared, hg]

theorem sierraPath_errOther (a : Declare) (env : RunEnv) (cl : SierraClass) (e : Nat)
    (hg : env.getClass (env.sierraClassHash cl) = .errOther e) :
    sierraPath a env cl = ⟨[], [], [], 0, some .sierra, .error (.provider e)⟩ := by
  unfold sierraPath
  simp [check_already_declared, hg]

theorem sierraPath_casmSourceNone (a : Declare) (env : RunEnv) (cl : SierraClass)
    (hg : env.getClass (env.sierraClassHash cl) = .errClassHashNotFound)
    (hcs : env.casmSource = none) :
    sierraPath a env cl = ⟨[], [], [], 0, some .sierra, .error .casmSource⟩ := by
  unfold sierraPath
  simp [check_already_declared, hg, hcs]

theorem sierraPath_compileError (a : Declare) (env : RunEnv) (cl : SierraClass)
    (src : CasmHashSource) (e : CompileError)
    (hg : env.getClass (env.sierraClassHash cl) = .errClassHashNotFound)
    (hcs : env.casmSource = some src)
    (hch : (CasmHashSource.get_casm_hash env.compilerEnv env.fs env.tempName src cl).1
      = .error e) :
    sierraPath a env cl
      = ⟨[],
         if a.fee.is_estimate_only then []
         else ["Declaring Cairo 1 class: " ++ rustHexAlt064 (env.sierraClassHash cl),
               casmSourceMessage src],
         [], 0, some .sierra, .error (.compile e)⟩ := by
  unfold sierraPath
  simp [check_already_declared, hg, hcs, hch]

theorem sierraPath_flattenError (a : Declare) (env : RunEnv) (cl : SierraClass)
    (src : CasmHashSource) (ch : Nat)
    (hg : env.getClass (env.sierraClassHash cl) = .errClassHashNotFound)
    (hcs : env.casmSource = some src)
    (hch : (CasmHashSource.get_casm_hash env.compilerEnv env.fs env.tempName src cl).1
      = .ok ch)
    (hfl : env.flattenOk = false) :
    sierraPath a env cl
      = ⟨[],
         (if a.fee.is_estimate_only then []
          else ["Declaring Cairo 1 class: " ++ rustHexAlt064 (env.sierraClassHash cl),
                casmSourceMessage src])
           ++ (if a.fee.is_estimate_only then []
               else ["CASM class hash: " ++ rustHexAlt064 ch]),
         [], 0, some .sierra, .error .flatten⟩ := by
  unfold sierraPath
  simp [check_already_declared, hg, hcs, hch, hfl]

theorem sierraPath_submit (a : Declare) (env : RunEnv) (cl : SierraClass)
    (src : CasmHashSource) (ch : Nat)
    (hg : env.getClass (env.sierraClassHash cl) = .errClassHashNotFound)
    (hcs : env.casmSource = some src)
    (hch : (CasmHashSource.get_casm_hash env.compilerEnv env.fs env.tempName src cl).1
      = .ok ch)
    (hfl : env.flattenOk = true) :
    sierraPath a env cl
      = submitTail a env .sierra (env.sierraClassHash cl) []
          ((if a.fee.is_estimate_only then []
            else ["Declaring Cairo 1 class: " ++ rustHexAlt064 (env.sierraClassHash cl),
                  casmSourceMessage src])
           ++ (if a.fee.is_estimate_only then []
               else ["CASM class hash: " ++ rustHexAlt064 ch])) := by
  unfold sierraPath
  simp [check_already_declared, hg, hcs, hch, hfl]

theorem legacyPath_found (a : Declare) (env : RunEnv) (lcl : Nat) (i : Nat)
    (hg : env.getClass (env.legacyClassHash lcl) = .found i) :
    legacyPath a env lcl
      = ⟨[rustHexAlt064 (env.legacyClassHash lcl)],
         ["Not declaring class as already declared. Class hash:"],
         [], 0, some .legacy, .ok ()⟩ := by
  unfold legacyPath
  simp [check_already_declared, hg]

theorem legacyPath_errOther (a : Declare) (env : RunEnv) (lcl : Nat) (e : Nat)
    (hg : env.getClass (env.legacyClassHash lcl) = .errOther e) :
    legacyPath a env lcl = ⟨[], [], [], 0, some .legacy, .error (.provider e)⟩ := by
  unfold legacyPath
  simp [check_already_declared, hg]

theorem legacyPath_submit (a : Declare) (env : RunEnv) (lcl : Nat)
    (hg : env.getClass (env.legacyClassHash lcl) = .errClassHashNotFound) :
    legacyPath a env lcl
      = submitTail a env .legacy (env.legacyClassHash lcl) []
          (if a.fee.is_estimate_only then []
           else ["Declaring Cairo 0 (deprecated) class: "
                 ++ rustHexAlt064 (env.legacyClassHash lcl)]) := by
  unfold legacyPath
  simp [check_already_declared, hg]

theorem sierraPath_pathTaken (a : Declare) (env : RunEnv) (cl : SierraClass) :
    (sierraPath a env cl).pathTaken = some .sierra := by
  cases hg : env.getClass (env.sierraClassHash cl) with
  | found i => rw [sierraPath_found a env cl i hg]
  | errOther e => rw [sierraPath_errOther a env cl e hg]
  | errClassHashNotFound =>
    cases hcs : env.casmSource with
    | none => rw [sierraPath_casmSourceNone a env cl hg hcs]
    | some src =>
      cases hch : (CasmHashSource.get_casm_hash env.compilerEnv env.fs env.tempName src cl).1 with
      | error e => rw [sierraPath_compileError a env cl src e hg hcs hch]
      | ok ch =>
        cases hfl : env.flattenOk with
        | false => rw [sierraPath_flattenError a env cl src ch hg hcs hch hfl]
        | true =>
          rw [sierraPath_submit a env cl src ch hg hcs hch hfl]
          apply submitTail_pathTaken

theorem legacyPath_pathTaken (a : Declare) (env : RunEnv) (lcl : Nat) :
    (legacyPath a env lcl).pathTaken = some .legacy := by
  cases hg : env.getClass (env.legacyClassHash lcl) with
  | found i => rw [legacyPath_found a env lcl i hg]
  | errOther e => rw [legacyPath_errOther a env lcl e hg]
  | errClassHashNotFound =>
    rw [legacyPath_submit a env lcl hg]
    apply submitTail_pathTaken

theorem afterFee_sends_of_simulate (a : Declare) (env : RunEnv) (k : ClassKind) (ch : Nat)
    (out0 err0 : List String) (mf ec : Nat) (h : a.simulate = true) :
    (afterFee a env k ch out0 err0 mf ec).sends = [] := by
  unfold afterFee
  cases env.simulateOutput <;> simp [h]

theorem afterFee_sends_of_send (a : Declare) (env : RunEnv) (k : ClassKind) (ch : Nat)
    (out0 err0 : List String) (mf ec : Nat) (tx : Nat)
    (hs : a.simulate = false) (ht : env.sendResult = some tx) :
    (afterFee a env k ch out0 err0 mf ec).sends = [⟨mf, a.nonce, k⟩] := by
  unfold afterFee
  cases hw : a.watch <;> cases hwo : env.watchOk <;> simp [hs, ht, hw, hwo]

theorem afterFee_ok_stdout (a : Declare) (env : RunEnv) (k : ClassKind) (ch : Nat)
    (out0 err0 : List String) (mf ec : Nat) :
    (afterFee a env k ch out0 err0 mf ec).outcome = .ok ()
    → (afterFee a env k ch out0 err0 mf ec).sends ≠ []
    → (afterFee a env k ch out0 err0 mf ec).stdout = out0 ++ [rustHexAlt064 ch] := by
  unfold afterFee
  cases a.simulate <;> cases env.simulateOutput <;> cases env.sendResult <;>
    cases a.watch <;> cases env.watchOk <;> simp

theorem submitTail_sends_of_simulate (a : Declare) (env : RunEnv) (k : ClassKind)
    (ch : Nat) (out0 err0 : List String) (h : a.simulate = true) :
    (submitTail a env k ch out0 err0).sends = [] := by
  unfold submitTail
  cases a.fee with
  | manual f => exact afterFee_sends_of_simulate _ _ _ _ _ _ _ _ h
  | estimateOnly => cases env.estimateFee <;> rfl
  | noSetting =>
    cases env.estimateFee with
    | none => rfl
    | some e => exact afterFee_sends_of_simulate _ _ _ _ _ _ _ _ h

theorem submitTail_sends_of_estimateOnly (a : Declare) (env : RunEnv) (k : ClassKind)
    (ch : Nat) (out0 err0 : List String) (h : a.fee = .estimateOnly) :
    (submitTail a env k ch out0 err0).sends = [] := by
  unfold submitTail
  rw [h]
  cases env.estimateFee <;> rfl

theorem submitTail_estimateOnly_spec (a : Declare) (env : RunEnv) (k : ClassKind)
    (ch : Nat) (out0 err0 : List String) (e : Nat)
    (h : a.fee = .estimateOnly) (he : env.estimateFee = some e) :
    submitTail a env k ch out0 err0
      = ⟨out0 ++ [env.feeDisplay e ++ " ETH"], err0, [], 1, some k, .ok ()⟩ := by
  unfold submitTail
  rw [h, he]

theorem submitTail_manual_spec (a : Declare) (env : RunEnv) (k : ClassKind)
    (ch : Nat) (out0 err0 : List String) (f : Nat) (h : a.fee = .manual f) :
    submitTail a env k ch out0 err0 = afterFee a env k ch out0 err0 f 0 := by
  unfold submitTail
  rw [h]

theorem submitTail_auto_spec (a : Declare) (env : RunEnv) (k : ClassKind)
    (ch : Nat) (out0 err0 : List String) (e : Nat)
    (h : a.fee = .noSetting) (he : env.estimateFee = some e) :
    submitTail a env k ch out0 err0
      = afterFee a env k ch out0 err0
          (e * (if env.isRpc then 5 else 3) % starkPrime / 2) 1 := by
  unfold submitTail
  rw [h, he]
  cases env.isRpc <;> rfl

theorem submitTail_ok_stdout (a : Declare) (env : RunEnv) (k : ClassKind) (ch : Nat)
    (out0 err0 : List String) :
    (submitTail a env k ch out0 err0).outcome = .ok ()
    → (submitTail a env k ch out0 err0).sends ≠ []
    → (submitTail a env k ch out0 err0).stdout = out0 ++ [rustHexAlt064 ch] := by
  unfold submitTail
  cases a.fee with
  | manual f => apply afterFee_ok_stdout
  | estimateOnly => cases env.estimateFee <;> simp
  | noSetting =>
    cases env.estimateFee with
    | none => simp
    | some e => apply afterFee_ok_stdout

theorem afterFee_simulate_spec (a : Declare) (env : RunEnv) (k : ClassKind) (ch : Nat)
    (out0 err0 : List String) (mf ec : Nat) (s : String)
    (hs : a.simulate = true) (ho : env.simulateOutput = some s) :
    (afterFee a env k ch out0 err0 mf ec).stdout = out0 ++ [s]
    ∧ (afterFee a env k ch out0 err0 mf ec).outcome = .ok ()
    ∧ (afterFee a env k ch out0 err0 mf ec).sends = [] := by
  unfold afterFee
  simp [hs, ho]

theorem submitTail_sends_of_mode (a : Declare) (env : RunEnv) (k : ClassKind)
    (ch : Nat) (out0 err0 : List String)
    (h : a.fee.is_estimate_only = true ∨ a.simulate = true) :
    (submitTail a env k ch out0 err0).sends = [] := by
  rcases h with h | h
  · exact submitTail_sends_of_estimateOnly _ _ _ _ _ _ ((is_estimate_only_iff _).mp h)
  · exact submitTail_sends_of_simulate _ _ _ _ _ _ h

theorem sierraPath_cases (a : Declare) (env : RunEnv) (cl : SierraClass) :
    (sierraPath a env cl).sends = []
    ∨ ∃ err0, sierraPath a env cl
        = submitTail a env .sierra (env.sierraClassHash cl) [] err0 := by
  cases hg : env.getClass (env.sierraClassHash cl) with
  | found i => left; rw [sierraPath_found a env cl i hg]
  | errOther e => left; rw [sierraPath_errOther a env cl e hg]
  | errClassHashNotFound =>
    cases hcs : env.casmSource with
    | none => left; rw [sierraPath_casmSourceNone a env cl hg hcs]
    | some src =>
      cases hch : (CasmHashSource.get_casm_hash env.compilerEnv env.fs env.tempName src cl).1 with
      | error e => left; rw [sierraPath_compileError a env cl src e hg hcs hch]
      | ok ch =>
        cases hfl : env.flattenOk with
        | false => left; rw [sierraPath_flattenError a env cl src ch hg hcs hch hfl]
        | true => right; exact ⟨_, sierraPath_submit a env cl src ch hg hcs hch hfl⟩

theorem legacyPath_cases (a : Declare) (env : RunEnv) (lcl : Nat) :
    (legacyPath a env lcl).sends = []
    ∨ ∃ err0, legacyPath a env lcl
        = submitTail a env .legacy (env.legacyClassHash lcl) [] err0 := by
  cases hg : env.getClass (env.legacyClassHash lcl) with
  | found i => left; rw [legacyPath_found a env lcl i hg]
  | errOther e => left; rw [legacyPath_errOther a env lcl e hg]
  | errClassHashNotFound => right; exact ⟨_, legacyPath_submit a env lcl hg⟩

theorem sierraPath_sends_of_mode (a : Declare) (env : RunEnv) (cl : SierraClass)
    (h : a.fee.is_estimate_only = true ∨ a.simulate = true) :
    (sierraPath a env cl).sends = [] := by
  rcases sierraPath_cases a env cl with h0 | ⟨err0, heq⟩
  · exact h0
  · rw [heq]
    exact submitTail_sends_of_mode _ _ _ _ _ _ h

theorem legacyPath_sends_of_mode (a : Declare) (env : RunEnv) (lcl : Nat)
    (h : a.fee.is_estimate_only = true ∨ a.simulate = true) :
    (legacyPath a env lcl).sends = [] := by
  rcases legacyPath_cases a env lcl with h0 | ⟨err0, heq⟩
  · exact h0
  · rw [heq]
    exact submitTail_sends_of_mode _ _ _ _ _ _ h

theorem sierraPath_ok_stdout (a : Declare) (env : RunEnv) (cl : SierraClass) :
    (sierraPath a env cl).outcome = .ok () → (sierraPath a env cl).sends ≠ [] →
    (sierraPath a env cl).stdout = [rustHexAlt064 (env.sierraClassHash cl)] := by
  intro h1 h2
  rcases sierraPath_cases a env cl with h0 | ⟨err0, heq⟩
  · exact absurd h0 h2
  · rw [heq] at h1 h2 ⊢
    simpa using submitTail_ok_stdout _ _ _ _ _ _ h1 h2

theorem legacyPath_ok_stdout (a : Declare) (env : RunEnv) (lcl : Nat) :
    (legacyPath a env lcl).outcome = .ok () → (legacyPath a env lcl).sends ≠ [] →
    (legacyPath a env lcl).stdout = [rustHexAlt064 (env.legacyClassHash lcl)] := by
  intro h1 h2
  rcases legacyPath_cases a env lcl with h0 | ⟨err0, heq⟩
  · exact absurd h0 h2
  · rw [heq] at h1 h2 ⊢
    simpa using submitTail_ok_stdout _ _ _ _ _ _ h1 h2

theorem validation_false_of_not (a : Declare)
    (hv : ¬(a.simulate = true ∧ a.fee.is_estimate_only = true)) :
    (a.simulate && a.fee.is_estimate_only) = false := by
  cases hs : a.simulate <;> cases hf : a.fee.is_estimate_only <;> simp_all

theorem run_validation_bail (a : Declare) (env : RunEnv)
    (hv : (a.simulate && a.fee.is_estimate_only) = true) :
    Declare.run a env = ⟨[], [], [], 0, none, .error .validation⟩ := by
  unfold Declare.run
  simp [hv]

theorem run_sierra (a : Declare) (env : RunEnv) (cl : SierraClass)
    (hv : (a.simulate && a.fee.is_estimate_only) = false)
    (hsp : env.sierraParse = some cl) :
    Declare.run a env = sierraPath a env cl := by
  unfold Declare.run
  simp [hv, hsp]

theorem run_casmRejected (a : Declare) (env : RunEnv)
    (hv : (a.simulate && a.fee.is_estimate_only) = false)
    (hsp : env.sierraParse = none) (hcp : env.casmParse = true) :
    Declare.run a env = ⟨[], [], [], 0, none, .error .unexpectedCasmClass⟩ := by
  unfold Declare.run
  simp [hv, hsp, hcp]

theorem run_legacy (a : Declare) (env : RunEnv) (lcl : Nat)
    (hv : (a.simulate && a.fee.is_estimate_only) = false)
    (hsp : env.sierraParse = none) (hcp : env.casmParse = false)
    (hlp : env.legacyParse = some lcl) :
    Declare.run a env = legacyPath a env lcl := by
  unfold Declare.run
  simp [hv, hsp, hcp, hlp]

theorem run_parseError (a : Declare) (env : RunEnv)
    (hv : (a.simulate && a.fee.is_estimate_only) = false)
    (hsp : env.sierraParse = none) (hcp : env.casmParse = false)
    (hlp : env.legacyParse = none) :
    Declare.run a env = ⟨[], [], [], 0, none, .error .artifactParse⟩ := by
  unfold Declare.run
  simp [hv, hsp, hcp, hlp]

/-! ## Claim theorems: compiler module -/

/-- C4: the pre-submission existence check fails closed: `ok false`
(proceed) exactly on the `ClassHashNotFound` provider error, `ok true`
(already declared) on every successful `get_class` response, and every
other provider failure propagates as an error. -/
theorem check_already_declared_fails_closed (resp : GetClassResult) (h : Nat) :
    ((check_already_declared resp h).1 = .ok false ↔ resp = .errClassHashNotFound)
    ∧ (∀ i, resp = .found i → (check_already_declared resp h).1 = .ok true)
    ∧ (∀ e, resp = .errOther e → (check_already_declared resp h).1 = .error e) := by
  refine ⟨?_, ?_, ?_⟩ <;> cases resp <;> simp [check_already_declared]

/-- Witness for C4: at the ClassHashNotFound response the check answers
`ok false`. -/
theorem check_already_declared_fails_closed_w :
    (check_already_declared .errClassHashNotFound 7).1 = .ok false :=
  (check_already_declared_fails_closed .errClassHashNotFound 7).1.mpr rfl

/-- C5: the external-binary strategy returns a compilation error carrying
the subprocess exit status whenever that status is non-zero, and the
temporary input file is gone on every exit path: the final filesystem
equals the initial one. -/
theorem compilerBinary_exit_status_and_cleanup (env : CompilerEnv) (fs : List String)
    (tmp : String) (self : CompilerBinary) (cl : SierraClass) :
    (CompilerBinary.compile env fs tmp self cl).2 = fs
    ∧ (∀ out, env.tempCreateOk = true → env.tempWriteOk = true → env.tempPathOk = true →
        env.runBinary self.path { cl with abi := [] } = some out → out.status ≠ 0 →
        (CompilerBinary.compile env fs tmp self cl).1 = .error (.exitStatus out.status)) := by
  constructor
  · unfold CompilerBinary.compile
    cases env.tempCreateOk <;> cases env.tempWriteOk <;> cases env.tempPathOk <;>
      simp [List.erase_cons_head] <;>
      cases hrb : env.runBinary self.path { cl with abi := [] } <;>
      simp [List.erase_cons_head] <;> rename_i out <;> obtain ⟨st, su⟩ := out <;>
      cases st <;> simp [List.erase_cons_head] <;> cases su <;>
      simp [List.erase_cons_head] <;> rename_i s <;>
      cases env.parseCompiled s <;> simp [List.erase_cons_head] <;> rename_i cc <;>
      cases env.casmClassHash cc <;> simp [List.erase_cons_head]
  · intro out h1 h2 h3 h4 h5
    unfold CompilerBinary.compile
    simp [h1, h2, h3, h4, h5]

/-- Witness for C5: subprocess exit status 1 yields the exit-status error
and leaves the filesystem unchanged. -/
theorem compilerBinary_exit_status_and_cleanup_w :
    (CompilerBinary.compile exitOneCompilerEnv [] "t" ⟨"cc"⟩ ⟨0, []⟩).2 = []
    ∧ (CompilerBinary.compile exitOneCompilerEnv [] "t" ⟨"cc"⟩ ⟨0, []⟩).1
      = .error (.exitStatus 1) :=
  ⟨(compilerBinary_exit_status_and_cleanup exitOneCompilerEnv [] "t" ⟨"cc"⟩ ⟨0, []⟩).1,
   (compilerBinary_exit_status_and_cleanup exitOneCompilerEnv [] "t" ⟨"cc"⟩ ⟨0, []⟩).2
     ⟨1, some ""⟩ rfl rfl rfl rfl (by decide)⟩

/-- C6: for every `CasmHashSource` variant the resolved hash is a function
of the source configuration, the Sierra class content and the fixed
external environment alone: the per-call filesystem state and the fresh
temporary-file name chosen for the call never influence the result, so two
calls with identical inputs yield identical hashes. -/
theorem get_casm_hash_pure (env : CompilerEnv) (src : CasmHashSource) (cl : SierraClass)
    (fs₁ fs₂ : List String) (tmp₁ tmp₂ : String) :
    (CasmHashSource.get_casm_hash env fs₁ tmp₁ src cl).1
      = (CasmHashSource.get_casm_hash env fs₂ tmp₂ src cl).1 := by
  cases src with
  | builtInCompiler c => rfl
  | casmFile p => rfl
  | hash h => rfl
  | compilerBinary c =>
    show (CompilerBinary.compile env fs₁ tmp₁ c cl).1 = (CompilerBinary.compile env fs₂ tmp₂ c cl).1
    unfold CompilerBinary.compile
    cases env.tempCreateOk <;> cases env.tempWriteOk <;> cases env.tempPathOk <;> simp <;>
      cases hrb : env.runBinary c.path { cl with abi := [] } <;> simp <;>
      rename_i out <;> obtain ⟨st, su⟩ := out <;> cases st <;> simp <;>
      cases su <;> simp <;> rename_i s <;>
      cases hpc : env.parseCompiled s <;> simp <;> rename_i cc <;>
      cases hch : env.casmClassHash cc <;> simp

/-- C8: both compilation strategies operate on a local ABI-cleared copy of
the Sierra class, so their observable behavior is independent of the ABI
the caller supplies (and the argument itself, passed by value in this
embedding, is never mutated). -/
theorem compile_clears_abi (env : CompilerEnv) (fs : List String) (tmp : String)
    (b : BuiltInCompiler) (x : CompilerBinary) (cl : SierraClass) (abi2 : List String) :
    BuiltInCompiler.compile env b { cl with abi := abi2 } = BuiltInCompiler.compile env b cl
    ∧ CompilerBinary.compile env fs tmp x { cl with abi := abi2 }
      = CompilerBinary.compile env fs tmp x cl :=
  ⟨rfl, rfl⟩

/-! ## Claim theorems: declaration orchestrator -/

/-- C2: when the idempotency check finds the class already declared (the
provider `get_class` call for the computed class hash succeeds), the run
prints the existing class hash, terminates successfully, and never issues
a send — on both the Sierra and the Legacy path. -/
theorem already_declared_short_circuit (a : Declare) (env : RunEnv) (h i : Nat)
    (hv : ¬(a.simulate = true ∧ a.fee.is_estimate_only = true))
    (hh : classHashOfArtifact env = some h)
    (hg : env.getClass h = .found i) :
    (Declare.run a env).sends = [] ∧ (Declare.run a env).outcome = .ok ()
    ∧ (Declare.run a env).stdout = [rustHexAlt064 h] := by
  have hb := validation_false_of_not a hv
  cases hsp : env.sierraParse with
  | some cl =>
    have hh2 : env.sierraClassHash cl = h := by
      simpa [classHashOfArtifact, hsp] using hh
    rw [run_sierra a env cl hb hsp]
    rw [← hh2] at hg
    rw [sierraPath_found a env cl i hg, hh2]
    exact ⟨rfl, rfl, rfl⟩
  | none =>
    cases hcp : env.casmParse with
    | true => simp [classHashOfArtifact, hsp, hcp] at hh
    | false =>
      cases hlp : env.legacyParse with
      | none => simp [classHashOfArtifact, hsp, hcp, hlp] at hh
      | some lcl =>
        have hh2 : env.legacyClassHash lcl = h := by
          simpa [classHashOfArtifact, hsp, hcp, hlp] using hh
        rw [run_legacy a env lcl hb hsp hcp hlp]
        rw [← hh2] at hg
        rw [legacyPath_found a env lcl i hg, hh2]
        exact ⟨rfl, rfl, rfl⟩

/-- Witness for C2: a concrete already-declared legacy run. -/
theorem already_declared_short_circuit_w :
    (Declare.run autoFeeArgs alreadyDeclaredEnv).sends = []
    ∧ (Declare.run autoFeeArgs alreadyDeclaredEnv).outcome = .ok ()
    ∧ (Declare.run autoFeeArgs alreadyDeclaredEnv).stdout = [rustHexAlt064 12] :=
  already_declared_short_circuit autoFeeArgs alreadyDeclaredEnv 12 0 (by decide) rfl rfl

/-- C3: kind detection tries SierraClass first, then the generic compiled
class (rejected with the unexpected-CASM error), then LegacyClass, and
otherwise reports an artifact parse error — so whenever the initial
option validation passes, exactly one of the four outcomes occurs. -/
theorem kind_detection (a : Declare) (env : RunEnv)
    (hv : ¬(a.simulate = true ∧ a.fee.is_estimate_only = true)) :
    ((∃ cl, env.sierraParse = some cl) → (Declare.run a env).pathTaken = some .sierra)
    ∧ (env.sierraParse = none → env.casmParse = true →
        (Declare.run a env).pathTaken = none
        ∧ (Declare.run a env).outcome = .error .unexpectedCasmClass)
    ∧ (env.sierraParse = none → env.casmParse = false →
        (∃ lcl, env.legacyParse = some lcl) →
        (Declare.run a env).pathTaken = some .legacy)
    ∧ (env.sierraParse = none → env.casmParse = false → env.legacyParse = none →
        (Declare.run a env).pathTaken = none
        ∧ (Declare.run a env).outcome = .error .artifactParse)
    ∧ ((Declare.run a env).pathTaken = some .sierra
        ∨ (Declare.run a env).pathTaken = some .legacy
        ∨ (Declare.run a env).outcome = .error .unexpectedCasmClass
        ∨ (Declare.run a env).outcome = .error .artifactParse) := by
  have hb := validation_false_of_not a hv
  refine ⟨?_, ?_, ?_, ?_, ?_⟩
  · rintro ⟨cl, hsp⟩
    rw [run_sierra a env cl hb hsp]
    exact sierraPath_pathTaken a env cl
  · intro hsp hcp
    rw [run_casmRejected a env hb hsp hcp]
    exact ⟨rfl, rfl⟩
  · rintro hsp hcp ⟨lcl, hlp⟩
    rw [run_legacy a env lcl hb hsp hcp hlp]
    exact legacyPath_pathTaken a env lcl
  · intro hsp hcp hlp
    rw [run_parseError a env hb hsp hcp hlp]
    exact ⟨rfl, rfl⟩
  · cases hsp : env.sierraParse with
    | some cl =>
      left
      rw [run_sierra a env cl hb hsp]
      exact sierraPath_pathTaken a env cl
    | none =>
      cases hcp : env.casmParse with
      | true =>
        right; right; left
        rw [run_casmRejected a env hb hsp hcp]
      | false =>
        cases hlp : env.legacyParse with
        | some lcl =>
          right; left
          rw [run_legacy a env lcl hb hsp hcp hlp]
          exact legacyPath_pathTaken a env lcl
        | none =>
          right; right; right
          rw [run_parseError a env hb hsp hcp hlp]

/-- Witness for C3: a legacy-parsing artifact takes the legacy path. -/
theorem kind_detection_w :
    (Declare.run manualFeeScenarioArgs manualFeeScenarioEnv).pathTaken = some .legacy :=
  (kind_detection manualFeeScenarioArgs manualFeeScenarioEnv (by decide)).2.2.1
    rfl rfl ⟨0xAB, rfl⟩

/-- C9: in estimate-only or simulate mode `send` is never invoked, on
either path; in estimate-only mode, whenever the run reaches fee
estimation and the estimate succeeds, it prints the human-readable fee
amount as the sole stdout line and terminates successfully; and in
simulate mode, whenever the run reaches the simulate step and the
simulation succeeds, it prints the simulation result as the sole stdout
line and terminates successfully without submitting — again on both the
Sierra and the Legacy path. -/
theorem estimate_simulate_never_send (a : Declare) (env : RunEnv) :
    ((a.fee.is_estimate_only = true ∨ a.simulate = true) → (Declare.run a env).sends = [])
    ∧ (∀ cl src ch e, a.fee = .estimateOnly → a.simulate = false →
        env.sierraParse = some cl →
        env.getClass (env.sierraClassHash cl) = .errClassHashNotFound →
        env.casmSource = some src →
        (CasmHashSource.get_casm_hash env.compilerEnv env.fs env.tempName src cl).1 = .ok ch →
        env.flattenOk = true →
        env.estimateFee = some e →
        Declare.run a env = ⟨[env.feeDisplay e ++ " ETH"], [], [], 1, some .sierra, .ok ()⟩)
    ∧ (∀ lcl e, a.fee = .estimateOnly → a.simulate = false →
        env.sierraParse = none → env.casmParse = false → env.legacyParse = some lcl →
        env.getClass (env.legacyClassHash lcl) = .errClassHashNotFound →
        env.estimateFee = some e →
        Declare.run a env = ⟨[env.feeDisplay e ++ " ETH"], [], [], 1, some .legacy, .ok ()⟩)
    ∧ (∀ cl src ch s mf, a.simulate = true →
        (a.fee = .manual mf ∨ a.fee = .noSetting ∧ env.estimateFee = some mf) →
        env.sierraParse = some cl →
        env.getClass (env.sierraClassHash cl) = .errClassHashNotFound →
        env.casmSource = some src →
        (CasmHashSource.get_casm_hash env.compilerEnv env.fs env.tempName src cl).1 = .ok ch →
        env.flattenOk = true →
        env.simulateOutput = some s →
        (Declare.run a env).stdout = [s] ∧ (Declare.run a env).outcome = .ok ()
          ∧ (Declare.run a env).sends = [])
    ∧ (∀ lcl s mf, a.simulate = true →
        (a.fee = .manual mf ∨ a.fee = .noSetting ∧ env.estimateFee = some mf) →
        env.sierraParse = none → env.casmParse = false → env.legacyParse = some lcl →
        env.getClass (env.legacyClassHash lcl) = .errClassHashNotFound →
        env.simulateOutput = some s →
        (Declare.run a env).stdout = [s] ∧ (Declare.run a env).outcome = .ok ()
          ∧ (Declare.run a env).sends = []) := by
  refine ⟨?_, ?_, ?_, ?_, ?_⟩
  · intro h
    cases hb : (a.simulate && a.fee.is_estimate_only) with
    | true => rw [run_validation_bail a env hb]
    | false =>
      cases hsp : env.sierraParse with
      | some cl =>
        rw [run_sierra a env cl hb hsp]
        exact sierraPath_sends_of_mode a env cl h
      | none =>
        cases hcp : env.casmParse with
        | true => rw [run_casmRejected a env hb hsp hcp]
        | false =>
          cases hlp : env.legacyParse with
          | some lcl =>
            rw [run_legacy a env lcl hb hsp hcp hlp]
            exact legacyPath_sends_of_mode a env lcl h
          | none => rw [run_parseError a env hb hsp hcp hlp]
  · intro cl src ch e hfee hsim hsp hg hcs hch hfl hest
    have hb : (a.simulate && a.fee.is_estimate_only) = false := by simp [hsim]
    have he : a.fee.is_estimate_only = true := by rw [hfee]; rfl
    rw [run_sierra a env cl hb hsp, sierraPath_submit a env cl src ch hg hcs hch hfl,
        submitTail_estimateOnly_spec a env _ _ _ _ e hfee hest]
    simp [he]
  · intro lcl e hfee hsim hsp hcp hlp hg hest
    have hb : (a.simulate && a.fee.is_estimate_only) = false := by simp [hsim]
    have he : a.fee.is_estimate_only = true := by rw [hfee]; rfl
    rw [run_legacy a env lcl hb hsp hcp hlp, legacyPath_submit a env lcl hg,
        submitTail_estimateOnly_spec a env _ _ _ _ e hfee hest]
    simp [he]
  · intro cl src ch s mf hsim hfee hsp hg hcs hch hfl ho
    have he : a.fee.is_estimate_only = false := by
      rcases hfee with hf | ⟨hf, _⟩ <;> rw [hf] <;> rfl
    have hb : (a.simulate && a.fee.is_estimate_only) = false := by simp [he]
    rw [run_sierra a env cl hb hsp, sierraPath_submit a env cl src ch hg hcs hch hfl]
    rcases hfee with hf | ⟨hf, hest⟩
    · rw [submitTail_manual_spec a env _ _ _ _ mf hf]
      exact afterFee_simulate_spec a env _ _ _ _ _ _ s hsim ho
    · rw [submitTail_auto_spec a env _ _ _ _ mf hf hest]
      exact afterFee_simulate_spec a env _ _ _ _ _ _ s hsim ho
  · intro lcl s mf hsim hfee hsp hcp hlp hg ho
    have he : a.fee.is_estimate_only = false := by
      rcases hfee with hf | ⟨hf, _⟩ <;> rw [hf] <;> rfl
    have hb : (a.simulate && a.fee.is_estimate_only) = false := by simp [he]
    rw [run_legacy a env lcl hb hsp hcp hlp, legacyPath_submit a env lcl hg]
    rcases hfee with hf | ⟨hf, hest⟩
    · rw [submitTail_manual_spec a env _ _ _ _ mf hf]
      exact afterFee_simulate_spec a env _ _ _ _ _ _ s hsim ho
    · rw [submitTail_auto_spec a env _ _ _ _ mf hf hest]
      exact afterFee_simulate_spec a env _ _ _ _ _ _ s hsim ho

/-- Witness for C9: a concrete estimate-only legacy run prints the fee and
sends nothing, and a concrete simulate-mode legacy run prints the
simulation result, terminates successfully, and sends nothing. -/
theorem estimate_simulate_never_send_w :
    (Declare.run ⟨.estimateOnly, false, none, false, 5000⟩ estimateOnlyEnv
      = ⟨[estimateOnlyEnv.feeDisplay 42 ++ " ETH"], [], [], 1, some .legacy, .ok ()⟩)
    ∧ ((Declare.run ⟨.manual 7, true, none, false, 5000⟩ simulateModeEnv).stdout
        = ["simulation trace"]
      ∧ (Declare.run ⟨.manual 7, true, none, false, 5000⟩ simulateModeEnv).outcome = .ok ()
      ∧ (Declare.run ⟨.manual 7, true, none, false, 5000⟩ simulateModeEnv).sends = []) :=
  ⟨(estimate_simulate_never_send ⟨.estimateOnly, false, none, false, 5000⟩
      estimateOnlyEnv).2.2.1 3 42 rfl rfl rfl rfl rfl rfl rfl,
   (estimate_simulate_never_send ⟨.manual 7, true, none, false, 5000⟩
      simulateModeEnv).2.2.2.2 3 "simulation trace" 7 rfl (.inl rfl) rfl rfl rfl rfl rfl⟩

/-- C10: on a successful submitting run the only stdout line is the
declared class hash; and when the class is found already declared, the
existing class hash is the only stdout line. -/
theorem stdout_only_class_hash (a : Declare) (env : RunEnv) :
    ((Declare.run a env).outcome = .ok () → (Declare.run a env).sends ≠ [] →
      ∃ h, classHashOfArtifact env = some h
        ∧ (Declare.run a env).stdout = [rustHexAlt064 h])
    ∧ (∀ h i, ¬(a.simulate = true ∧ a.fee.is_estimate_only = true) →
        classHashOfArtifact env = some h → env.getClass h = .found i →
        (Declare.run a env).stdout = [rustHexAlt064 h]) := by
  constructor
  · intro h1 h2
    cases hb : (a.simulate && a.fee.is_estimate_only) with
    | true =>
      rw [run_validation_bail a env hb] at h1
      exact absurd h1 (by simp)
    | false =>
      cases hsp : env.sierraParse with
      | some cl =>
        rw [run_sierra a env cl hb hsp] at h1 h2 ⊢
        exact ⟨env.sierraClassHash cl, by simp [classHashOfArtifact, hsp],
               sierraPath_ok_stdout a env cl h1 h2⟩
      | none =>
        cases hcp : env.casmParse with
        | true =>
          rw [run_casmRejected a env hb hsp hcp] at h1
          exact absurd h1 (by simp)
        | false =>
          cases hlp : env.legacyParse with
          | some lcl =>
            rw [run_legacy a env lcl hb hsp hcp hlp] at h1 h2 ⊢
            exact ⟨env.legacyClassHash lcl, by simp [classHashOfArtifact, hsp, hcp, hlp],
                   legacyPath_ok_stdout a env lcl h1 h2⟩
          | none =>
            rw [run_parseError a env hb hsp hcp hlp] at h1
            exact absurd h1 (by simp)
  · intro h i hv hh hg
    have hb := validation_false_of_not a hv
    cases hsp : env.sierraParse with
    | some cl =>
      have hh2 : env.sierraClassHash cl = h := by
        simpa [classHashOfArtifact, hsp] using hh
      rw [run_sierra a env cl hb hsp]
      rw [← hh2] at hg
      rw [sierraPath_found a env cl i hg, hh2]
    | none =>
      cases hcp : env.casmParse with
      | true => simp [classHashOfArtifact, hsp, hcp] at hh
      | false =>
        cases hlp : env.legacyParse with
        | none => simp [classHashOfArtifact, hsp, hcp, hlp] at hh
        | some lcl =>
          have hh2 : env.legacyClassHash lcl = h := by
            simpa [classHashOfArtifact, hsp, hcp, hlp] using hh
          rw [run_legacy a env lcl hb hsp hcp hlp]
          rw [← hh2] at hg
          rw [legacyPath_found a env lcl i hg, hh2]

/-- Witness for C10: the concrete manual-fee scenario submits and prints
only the class hash. -/
theorem stdout_only_class_hash_w :
    ∃ h, classHashOfArtifact manualFeeScenarioEnv = some h
      ∧ (Declare.run manualFeeScenarioArgs manualFeeScenarioEnv).stdout
        = [rustHexAlt064 h] :=
  (stdout_only_class_hash manualFeeScenarioArgs manualFeeScenarioEnv).1 rfl (by decide)

/-- C1 (amended): in automatic fee mode, the max fee attached to the sent
declaration equals floor((E * m mod p) / 2), where E is the raw estimate,
p is the Stark prime (the field multiplication wraps), and m is 5 on the
RPC dialect and 3 otherwise — the multiplier pair is selected solely by
provider dialect, identically on the Sierra and Legacy paths; whenever
E * m stays below p this coincides with floor(E * m / 2) as the
original claim states. -/
theorem auto_fee_multiplier (a : Declare) (env : RunEnv) (e : Nat)
    (hfee : a.fee = .noSetting) (hsim : a.simulate = false)
    (hest : env.estimateFee = some e) (tx : Nat) (hsend : env.sendResult = some tx) :
    (∀ cl src ch, env.sierraParse = some cl →
        env.getClass (env.sierraClassHash cl) = .errClassHashNotFound →
        env.casmSource = some src →
        (CasmHashSource.get_casm_hash env.compilerEnv env.fs env.tempName src cl).1 = .ok ch →
        env.flattenOk = true →
        (Declare.run a env).sends.map SentTx.maxFee
          = [e * (if env.isRpc then 5 else 3) % starkPrime / 2])
    ∧ (∀ lcl, env.sierraParse = none → env.casmParse = false → env.legacyParse = some lcl →
        env.getClass (env.legacyClassHash lcl) = .errClassHashNotFound →
        (Declare.run a env).sends.map SentTx.maxFee
          = [e * (if env.isRpc then 5 else 3) % starkPrime / 2])
    ∧ (e * (if env.isRpc then 5 else 3) < starkPrime →
        e * (if env.isRpc then 5 else 3) % starkPrime / 2
          = e * (if env.isRpc then 5 else 3) / 2) := by
  have hb : (a.simulate && a.fee.is_estimate_only) = false := by simp [hsim]
  refine ⟨?_, ?_, ?_⟩
  · intro cl src ch hsp hg hcs hch hfl
    rw [run_sierra a env cl hb hsp, sierraPath_submit a env cl src ch hg hcs hch hfl,
        submitTail_auto_spec a env _ _ _ _ e hfee hest,
        afterFee_sends_of_send a env _ _ _ _ _ _ tx hsim hsend]
    rfl
  · intro lcl hsp hcp hlp hg
    rw [run_legacy a env lcl hb hsp hcp hlp, legacyPath_submit a env lcl hg,
        submitTail_auto_spec a env _ _ _ _ e hfee hest,
        afterFee_sends_of_send a env _ _ _ _ _ _ tx hsim hsend]
    rfl
  · intro hlt
    rw [Nat.mod_eq_of_lt hlt]

/-- Counterexample for C1: with the largest possible estimate E = p - 1 on
the RPC dialect, the submitted max fee is floor((5E mod p)/2) = (p-5)/2,
which differs from the floor(5E/2) the claim states. -/
theorem auto_fee_multiplier_cex :
    (Declare.run autoFeeArgs autoFeeCexEnv).sends.map SentTx.maxFee
      = [(starkPrime - 5) / 2]
    ∧ (starkPrime - 5) / 2 ≠ (starkPrime - 1) * 5 / 2 := by
  refine ⟨rfl, by decide⟩

/-- Witness for C1 (amended): non-RPC dialect with estimate 100 submits
max fee 150. -/
theorem auto_fee_multiplier_w :
    (Declare.run autoFeeArgs autoFeeWitnessEnv).sends.map SentTx.maxFee = [150] := by
  have h := (auto_fee_multiplier autoFeeArgs autoFeeWitnessEnv 100 rfl rfl rfl 9 rfl).2.1
    5 rfl rfl rfl rfl
  rw [h]
  decide

/-- Counterexample for C7: in the concrete scenario the printed class hash
is not the 0x-prefixed form with 64 hex digits — the Rust width of 64
includes the 0x prefix, leaving 62 digits. -/
theorem manual_fee_scenario_cex :
    (Declare.run manualFeeScenarioArgs manualFeeScenarioEnv).stdout
      ≠ ["0x" ++ String.mk (List.replicate 62 '0') ++ "ab"] := by
  decide

/-- C7 (amended): legacy artifact with hash 0xAB, class not declared,
manual fee 1000: a declaration is sent with max fee exactly 1000, no
estimation call is made, the run succeeds, and the printed class hash is
the 0x-prefixed zero-padded form of total width 64 (62 hex digits). -/
theorem manual_fee_scenario :
    (Declare.run manualFeeScenarioArgs manualFeeScenarioEnv).sends
      = [⟨1000, none, .legacy⟩]
    ∧ (Declare.run manualFeeScenarioArgs manualFeeScenarioEnv).estimateCalls = 0
    ∧ (Declare.run manualFeeScenarioArgs manualFeeScenarioEnv).stdout
      = ["0x" ++ String.mk (List.replicate 60 '0') ++ "ab"]
    ∧ (Declare.run manualFeeScenarioArgs manualFeeScenarioEnv).outcome = .ok () := by
  exact ⟨rfl, rfl, by decide, rfl⟩

end Starkli
